import Mathlib

/-
Verification of the deno `ext/http` HTTP/1.1 server adapter (src/ext/http/lib.rs).

The development shallowly embeds the pure/sequential content of the op
functions: header normalization (cookie coalescing), WebSocket upgrade
detection, URL reconstruction, the accept-key hash, and the resource-table
manipulations performed by the async ops, with the engine (hyper) connection
future abstracted as an explicit poll result.
-/

namespace DenoHttp

/-! ## Byte-string utilities

Header names and values are raw byte strings; we model bytes as `Nat`
(each `< 256` on real inputs). -/

/-- ASCII lowercase of a single byte, as performed by case-insensitive
header-name comparison and by `str::to_lowercase` on ASCII text. -/
def toLowerByte (b : Nat) : Nat :=
  if 65 ≤ b ∧ b ≤ 90 then b + 32 else b

/-- The bytes of `"cookie"`. -/
def cookieBytes : List Nat := [99, 111, 111, 107, 105, 101]

/-- The bytes of `"connection"`. -/
def connectionBytes : List Nat :=
  [99, 111, 110, 110, 101, 99, 116, 105, 111, 110]

/-- The bytes of `"upgrade"` (used both as a header name and a substring). -/
def upgradeBytes : List Nat := [117, 112, 103, 114, 97, 100, 101]

/-- The bytes of `"websocket"`. -/
def websocketBytes : List Nat := [119, 101, 98, 115, 111, 99, 107, 101, 116]

/-- The bytes of `"host"`. -/
def hostBytes : List Nat := [104, 111, 115, 116]

/-- The bytes of the `"; "` cookie separator used at lib.rs:247. -/
def sepBytes : List Nat := [59, 32]

/-- Whether `hay` starts with `needle` (byte lists). -/
def listStartsWith : List Nat → List Nat → Bool
  | _, [] => true
  | [], _ :: _ => false
  | a :: as, b :: bs => a == b && listStartsWith as bs

/-- Whether `needle` occurs as a contiguous substring of `hay`, mirroring
Rust `str::contains` on ASCII text. -/
def containsSub : List Nat → List Nat → Bool
  | hay, needle =>
    listStartsWith hay needle ||
      match hay with
      | [] => false
      | _ :: t => containsSub t needle

/-- `HeaderValue::to_str` succeeds exactly on visible-ASCII bytes
(32–126) and horizontal tab. -/
def isVisibleAscii (b : Nat) : Bool :=
  (32 ≤ b && b ≤ 126) || b == 9

/-- Whether a whole header value is convertible by `HeaderValue::to_str`. -/
def headerValueIsAscii (v : List Nat) : Bool :=
  v.all isVisibleAscii

/-- Case-insensitive comparison of a header name with `"cookie"`,
modelling `name == hyper::header::COOKIE` (hyper header names compare
ASCII-case-insensitively against the wire form). -/
def isCookieHeader (name : List Nat) : Bool :=
  name.map toLowerByte == cookieBytes

/-! ## Cookie coalescing (op_http_request_next, lib.rs:223–254) -/

/-- The header loop at lib.rs:226–238: each header whose name is `cookie`
has its value collected; every other header is passed through in order.
Returns (pass-through headers, cookie values), both in arrival order. -/
def splitHeaders : List (List Nat × List Nat) → List (List Nat × List Nat) × List (List Nat)
  | [] => ([], [])
  | (n, v) :: rest =>
    let r := splitHeaders rest
    if isCookieHeader n then (r.1, v :: r.2) else ((n, v) :: r.1, r.2)

/-- The joining loop at lib.rs:243–249: append each cookie value, and
after every value except the last append `"; "`. -/
def cookieConcatLoop (count : Nat) : Nat → List Nat → List (List Nat) → List Nat
  | _, acc, [] => acc
  | i, acc, c :: rest =>
    let acc1 := acc ++ c
    let acc2 := if i ≠ count - 1 then acc1 ++ sepBytes else acc1
    cookieConcatLoop count (i + 1) acc2 rest

/-- Concatenation of all cookie values separated by `"; "`
(lib.rs:240–249). -/
def cookieConcat (cookies : List (List Nat)) : List Nat :=
  cookieConcatLoop cookies.length 0 [] cookies

/-- The host-visible header list produced by `op_http_request_next`:
non-cookie headers in arrival order, followed — iff at least one cookie
header was present — by a single `("cookie", joined-values)` entry
(lib.rs:226–254). -/
def processHeaders (hs : List (List Nat × List Nat)) : List (List Nat × List Nat) :=
  let r := splitHeaders hs
  if r.2.isEmpty then r.1
  else r.1 ++ [(cookieBytes, cookieConcat r.2)]

/-! ## WebSocket upgrade detection (lib.rs:269–286) -/

/-- `headers.get_all(name)` : the values of every header whose name
matches `name` case-insensitively, in arrival order. -/
def getAllValues (hs : List (List Nat × List Nat)) (name : List Nat) : List (List Nat) :=
  (hs.filter (fun p => p.1.map toLowerByte == name)).map (fun p => p.2)

/-- `v.to_str().map(|s| s.to_lowercase().contains(sub)).unwrap_or(false)` :
a value counts only if it is visible ASCII (so `to_str` succeeds), and its
lowercase form contains `sub`. -/
def valueLcContains (v sub : List Nat) : Bool :=
  if headerValueIsAscii v then containsSub (v.map toLowerByte) sub else false

/-- `is_websocket_request` (lib.rs:269–286): some `Connection` value
lowercase-contains `"upgrade"` and some `Upgrade` value lowercase-contains
`"websocket"`, where a value failing `to_str` counts as false. -/
def is_websocket_request (hs : List (List Nat × List Nat)) : Bool :=
  ((getAllValues hs connectionBytes).any fun v => valueLcContains v upgradeBytes) &&
    ((getAllValues hs upgradeBytes).any fun v => valueLcContains v websocketBytes)

/-- Modelled from the spec (§4.6 WebSocket detection): a request is an
upgrade candidate iff at least one `Connection` header value, lowercased,
contains the substring `upgrade` and at least one `Upgrade` header value,
lowercased, contains `websocket`. Lowercasing is bytewise ASCII; no
decodability requirement appears in the spec's words. -/
def specWsCandidate (hs : List (List Nat × List Nat)) : Bool :=
  ((getAllValues hs connectionBytes).any fun v => containsSub (v.map toLowerByte) upgradeBytes) &&
    ((getAllValues hs upgradeBytes).any fun v => containsSub (v.map toLowerByte) websocketBytes)

/-! ## Request data and URL reconstruction (lib.rs:256–267) -/

/-- The authority component of a request target, as hyper's `Uri`
stores it: optional userinfo, the host, and an optional port.
`Uri::host()` (used at lib.rs:258) yields only the host part;
`Uri::authority()` would yield all three. -/
structure Authority where
  userinfo : Option String
  host : String
  port : Option Nat
deriving DecidableEq

/-- The full string form of an authority:
`[userinfo "@"] host [":" port]`. -/
def Authority.render (a : Authority) : String :=
  (match a.userinfo with
    | some u => u ++ "@"
    | none => "") ++ a.host ++
    (match a.port with
      | some p => ":" ++ toString p
      | none => "")

/-- The inputs of the per-request pure computations of
`op_http_request_next`: method, wire headers, the request target's
authority and path+query (from `req.uri()`), and the body size hint. -/
structure RequestData where
  method : String
  headers : List (List Nat × List Nat)
  uriAuthority : Option Authority
  pathAndQuery : Option String
  sizeHintExact : Option Nat
deriving DecidableEq

/-- Errors surfaced by the modelled ops. -/
inductive IoKind
  | notConnected
  | connectionReset
  | other
deriving DecidableEq

/-- One link of an error's `source()` chain: an `std::io::Error` of some
kind, or an error that does not downcast to `std::io::Error`. -/
inductive ErrLink
  | io (k : IoKind)
  | other
deriving DecidableEq

/-- An engine (connection-future) error as observed through downcasting:
whether it downcasts to `hyper::Error` (for errors of the connection
future this always holds, as its error type is `hyper::Error`), and its
`source()` chain — the head of `sourceChain` is the error returned by
`e.source()`, the next element that error's own source, and so on. -/
structure EngErr where
  isHyper : Bool
  sourceChain : List ErrLink
deriving DecidableEq

/-- Host-visible error classes. -/
inductive HttpErr
  | badResource
  | nullBuf
  | typeError (msg : String)
  | engine (e : EngErr)
  | io (k : IoKind)
  | urlNonAscii
  | sendFailed
deriving DecidableEq

/-- `HeaderValue::to_str` : the value decoded as an ASCII string, failing
on any non-visible-ASCII byte. -/
def headerValueToStr (v : List Nat) : Option String :=
  if headerValueIsAscii v then some (String.mk (v.map Char.ofNat)) else none

/-- `headers.get("HOST")` : the first value of a header whose name
matches case-insensitively. -/
def getFirstValue (hs : List (List Nat × List Nat)) (name : List Nat) : Option (List Nat) :=
  (getAllValues hs name).head?

/-- URL reconstruction (lib.rs:256–267): host is `req.uri().host()` —
only the host component of the target's authority, with userinfo and
port dropped — else the decoded `Host` header (`to_str()?` propagates an
error on non-ASCII bytes), else the connection's local-address string;
the result is `format!("{}://{}{}", scheme, host, path)` with path
defaulting to `"/"`. -/
def buildUrl (scheme addr : String) (req : RequestData) : Except HttpErr String :=
  let hostR : Except HttpErr String :=
    match req.uriAuthority with
    | some a => Except.ok a.host
    | none =>
      match getFirstValue req.headers hostBytes with
      | some v =>
        match headerValueToStr v with
        | some s => Except.ok s
        | none => Except.error HttpErr.urlNonAscii
      | none => Except.ok addr
  match hostR with
  | Except.error e => Except.error e
  | Except.ok host =>
    let path := match req.pathAndQuery with
      | some p => p
      | none => "/"
    Except.ok (scheme ++ "://" ++ host ++ path)

/-- Modelled from the spec (§4.6 URL reconstruction), the claim's
original reading: the URL is `"{scheme}://{host}{path-and-query}"`,
host being in order the request target's **authority** (its full
`[userinfo "@"] host [":" port]` form) when present, else the `Host`
header decoded as ASCII, else the connection's local-address string,
and path+query defaulting to `"/"`. -/
def specUrl (scheme addr : String) (req : RequestData) : Except HttpErr String :=
  let hostE : Except HttpErr String :=
    match req.uriAuthority with
    | some a => Except.ok a.render
    | none =>
      match getFirstValue req.headers hostBytes with
      | some v =>
        match headerValueToStr v with
        | some s => Except.ok s
        | none => Except.error HttpErr.urlNonAscii
      | none => Except.ok addr
  Except.map (fun host => scheme ++ "://" ++ host ++
    (match req.pathAndQuery with | some p => p | none => "/")) hostE

/-- The amended reading of the claim: as `specUrl`, but host is the
**host component** of the request target's authority — userinfo and
port are dropped — when an authority is present. -/
def specUrlAmended (scheme addr : String) (req : RequestData) : Except HttpErr String :=
  let hostE : Except HttpErr String :=
    match req.uriAuthority with
    | some a => Except.ok a.host
    | none =>
      match getFirstValue req.headers hostBytes with
      | some v =>
        match headerValueToStr v with
        | some s => Except.ok s
        | none => Except.error HttpErr.urlNonAscii
      | none => Except.ok addr
  Except.map (fun host => scheme ++ "://" ++ host ++
    (match req.pathAndQuery with | some p => p | none => "/")) hostE

/-- `has_body` (lib.rs:288–292): the size hint is exactly positive, or
unknown. -/
def has_body (sizeHintExact : Option Nat) : Bool :=
  match sizeHintExact with
  | some exactSize => decide (exactSize > 0)
  | none => true

/-! ## SHA-1 and base64 (op_http_websocket_accept_header, lib.rs:575–585)

The op calls `ring`'s SHA-1 and `base64::encode`, external libraries;
they are modelled here by the standard algorithms the spec names
(§4.7: SHA-1 digest, standard padded base64). -/

/-- Truncation to a 32-bit word. -/
def w32 (n : Nat) : Nat := n % 4294967296

/-- Left rotation of a 32-bit word by `b` bits. -/
def rotl (b n : Nat) : Nat :=
  n % 2 ^ (32 - b) * 2 ^ b + n / 2 ^ (32 - b)

/-- Big-endian bytes of a 32-bit word. -/
def be32 (n : Nat) : List Nat :=
  [n / 16777216 % 256, n / 65536 % 256, n / 256 % 256, n % 256]

/-- Big-endian bytes of a 64-bit length field. -/
def be64 (n : Nat) : List Nat :=
  [n / 2 ^ 56 % 256, n / 2 ^ 48 % 256, n / 2 ^ 40 % 256, n / 2 ^ 32 % 256,
   n / 2 ^ 24 % 256, n / 2 ^ 16 % 256, n / 2 ^ 8 % 256, n % 256]

/-- SHA-1 message padding: `0x80`, zeros to 56 mod 64, then the bit
length as a 64-bit big-endian integer. -/
def sha1PadBytes (msg : List Nat) : List Nat :=
  msg ++ [128] ++ List.replicate ((119 - msg.length % 64) % 64) 0 ++
    be64 (msg.length * 8)

/-- Group a byte list into 64-byte blocks (the input length is a
multiple of 64 after padding). -/
def chunksGo : Nat → List Nat → List (List Nat)
  | 0, _ => []
  | _, [] => []
  | fuel + 1, l => l.take 64 :: chunksGo fuel (l.drop 64)

/-- All 64-byte blocks of a byte list. -/
def chunks64 (l : List Nat) : List (List Nat) := chunksGo l.length l

/-- Big-endian 32-bit words of a block. -/
def toWords : List Nat → List Nat
  | a :: b :: c :: d :: rest => (((a * 256 + b) * 256 + c) * 256 + d) :: toWords rest
  | _ => []

/-- One step of the SHA-1 message-schedule extension; `rev` holds the
schedule so far, most recent word first. -/
def nextW (rev : List Nat) : Nat :=
  rotl 1 (Nat.xor (Nat.xor (rev.getD 2 0) (rev.getD 7 0))
    (Nat.xor (rev.getD 13 0) (rev.getD 15 0)))

/-- Extend the schedule by `n` words. -/
def buildSchedule : Nat → List Nat → List Nat
  | 0, rev => rev
  | n + 1, rev => buildSchedule n (nextW rev :: rev)

/-- The SHA-1 round constant for round `i`. -/
def sha1K (i : Nat) : Nat :=
  if i < 20 then 1518500249
  else if i < 40 then 1859775393
  else if i < 60 then 2400959708
  else 3395469782

/-- The SHA-1 round function for round `i`. -/
def sha1F (i b c d : Nat) : Nat :=
  if i < 20 then Nat.lor (Nat.land b c) (Nat.land (Nat.xor b 4294967295) d)
  else if i < 40 then Nat.xor (Nat.xor b c) d
  else if i < 60 then Nat.lor (Nat.lor (Nat.land b c) (Nat.land b d)) (Nat.land c d)
  else Nat.xor (Nat.xor b c) d

/-- The 80 SHA-1 compression rounds over the schedule words. -/
def sha1Rounds : Nat → List Nat → Nat × Nat × Nat × Nat × Nat → Nat × Nat × Nat × Nat × Nat
  | _, [], st => st
  | i, w :: rest, (a, b, c, d, e) =>
    let temp := w32 (rotl 5 a + sha1F i b c d + e + sha1K i + w)
    sha1Rounds (i + 1) rest (temp, a, rotl 30 b, c, d)

/-- Process one 64-byte block. -/
def sha1Block (h : Nat × Nat × Nat × Nat × Nat) (block : List Nat) :
    Nat × Nat × Nat × Nat × Nat :=
  let sched := (buildSchedule 64 (toWords block).reverse).reverse
  let r := sha1Rounds 0 sched h
  (w32 (h.1 + r.1), w32 (h.2.1 + r.2.1), w32 (h.2.2.1 + r.2.2.1),
   w32 (h.2.2.2.1 + r.2.2.2.1), w32 (h.2.2.2.2 + r.2.2.2.2))

/-- SHA-1 digest (20 bytes) of a byte string. -/
def sha1 (msg : List Nat) : List Nat :=
  let h := (chunks64 (sha1PadBytes msg)).foldl sha1Block
    (1732584193, 4023233417, 2562383102, 271733878, 3285377520)
  be32 h.1 ++ be32 h.2.1 ++ be32 h.2.2.1 ++ be32 h.2.2.2.1 ++ be32 h.2.2.2.2

/-- The standard base64 alphabet as ASCII codes. -/
def b64Alphabet : List Nat :=
  [65, 66, 67, 68, 69, 70, 71, 72, 73, 74, 75, 76, 77, 78, 79, 80, 81, 82,
   83, 84, 85, 86, 87, 88, 89, 90, 97, 98, 99, 100, 101, 102, 103, 104,
   105, 106, 107, 108, 109, 110, 111, 112, 113, 114, 115, 116, 117, 118,
   119, 120, 121, 122, 48, 49, 50, 51, 52, 53, 54, 55, 56, 57, 43, 47]

/-- The base64 character for a 6-bit group. -/
def b64Char (n : Nat) : Nat := b64Alphabet.getD n 65

/-- Standard (non-URL-safe) base64 encoding with `=` padding. -/
def base64Encode : List Nat → List Nat
  | [] => []
  | [a] => [b64Char (a / 4), b64Char (a % 4 * 16), 61, 61]
  | [a, b] => [b64Char (a / 4), b64Char (a % 4 * 16 + b / 16), b64Char (b % 16 * 4), 61]
  | a :: b :: c :: rest =>
    b64Char (a / 4) :: b64Char (a % 4 * 16 + b / 16) ::
      b64Char (b % 16 * 4 + c / 64) :: b64Char (c % 64) :: base64Encode rest

/-- UTF-8 encoding of one code point. -/
def utf8EncodeCp (c : Nat) : List Nat :=
  if c < 128 then [c]
  else if c < 2048 then [192 + c / 64, 128 + c % 64]
  else if c < 65536 then [224 + c / 4096, 128 + c / 64 % 64, 128 + c % 64]
  else [240 + c / 262144, 128 + c / 4096 % 64, 128 + c / 64 % 64, 128 + c % 64]

/-- The UTF-8 bytes of a string. -/
def strBytes (s : String) : List Nat :=
  s.data.foldr (fun c acc => utf8EncodeCp c.toNat ++ acc) []

/-- Bytes (ASCII codes) rendered back as a string. -/
def bytesToString (bs : List Nat) : String :=
  String.mk (bs.map Char.ofNat)

/-- The WebSocket GUID appended to the client key (lib.rs:582). -/
def wsGuid : String := "258EAFA5-E914-47DA-95CA-C5AB0DC85B11"

/-- `op_http_websocket_accept_header` (lib.rs:575–585):
`base64(SHA1(key ++ GUID))` over the UTF-8 bytes of the concatenation. -/
def op_http_websocket_accept_header (key : String) : String :=
  bytesToString (base64Encode (sha1 (strBytes (key ++ wsGuid))))

/-! ## The resource table and the stateful ops

`deno_core`'s resource table maps increasing integer ids to typed
resources; `get::<T>` fails (yielding *bad-resource*) on a missing id or
a type mismatch, and `take::<T>` additionally removes the entry exactly
when the typed `get` succeeds. -/

/-- The two body states of a `RequestResource`
(`RequestOrStreamReader`, lib.rs:632–635). -/
inductive ReqState
  | fresh
  | reading
deriving DecidableEq

/-- The typed resources the http ops put into the table. A connection
carries its scheme and local-address string; children carry their
`conn_rid`; a `ResponseSenderResource` also records whether the engine
still holds the receiving end of its oneshot channel. -/
inductive Res
  | conn (scheme addr : String)
  | request (st : ReqState) (connRid : Nat)
  | responseSender (receiverAlive : Bool) (connRid : Nat)
  | responseBody (connRid : Nat)
  | wsStream
deriving DecidableEq

/-- The resource table: a fresh-id counter and the entries, most
recently added first. -/
structure Table where
  nextRid : Nat
  entries : List (Nat × Res)
deriving DecidableEq

/-- Raw lookup of an id. -/
def Table.find (t : Table) (rid : Nat) : Option Res :=
  (t.entries.find? (fun p => p.1 == rid)).map (fun p => p.2)

/-- Insert a resource under a fresh id, returning the id. -/
def Table.add (t : Table) (r : Res) : Nat × Table :=
  (t.nextRid, ⟨t.nextRid + 1, (t.nextRid, r) :: t.entries⟩)

/-- Remove an id from the table. -/
def Table.remove (t : Table) (rid : Nat) : Table :=
  ⟨t.nextRid, t.entries.filter (fun p => !(p.1 == rid))⟩

/-- Well-formedness maintained by `add`: every key is below the
fresh-id counter. -/
def Table.wf (t : Table) : Bool :=
  t.entries.all (fun p => p.1 < t.nextRid)

/-- `get::<ConnResource>`. -/
def getConn (t : Table) (rid : Nat) : Option (String × String) :=
  match t.find rid with
  | some (Res.conn s a) => some (s, a)
  | _ => none

/-- `get::<RequestResource>`. -/
def getRequest (t : Table) (rid : Nat) : Option (ReqState × Nat) :=
  match t.find rid with
  | some (Res.request st c) => some (st, c)
  | _ => none

/-- `get::<ResponseSenderResource>`. -/
def getSender (t : Table) (rid : Nat) : Option (Bool × Nat) :=
  match t.find rid with
  | some (Res.responseSender alive c) => some (alive, c)
  | _ => none

/-- `get::<ResponseBodyResource>`. -/
def getBody (t : Table) (rid : Nat) : Option Nat :=
  match t.find rid with
  | some (Res.responseBody c) => some c
  | _ => none

/-- `take::<RequestResource>`: remove exactly when the typed get
succeeds. -/
def takeRequest (t : Table) (rid : Nat) : Option (ReqState × Nat) × Table :=
  match getRequest t rid with
  | some x => (some x, t.remove rid)
  | none => (none, t)

/-- `take::<ResponseSenderResource>`. -/
def takeSender (t : Table) (rid : Nat) : Option (Bool × Nat) × Table :=
  match getSender t rid with
  | some x => (some x, t.remove rid)
  | none => (none, t)

/-- Overwrite the state of the request stored at `rid` (the
`Fresh → Reading` transition performed through `AsyncRefCell`). -/
def setRequestState (t : Table) (rid : Nat) (st : ReqState) : Table :=
  ⟨t.nextRid, t.entries.map (fun p =>
    if p.1 == rid then
      (p.1, match p.2 with
        | Res.request _ c => Res.request st c
        | r => r)
    else p)⟩

/-- One observation of the connection future (`ConnResource::poll`). -/
inductive ConnPoll
  | pending
  | ok
  | err (e : EngErr)
deriving DecidableEq

/-- `should_ignore_error` (lib.rs:331–343): the error downcasts to
`hyper::Error` and its direct `source()` — only the first link of the
chain — downcasts to an `std::io::Error` of kind `NotConnected`. -/
def should_ignore_error (e : EngErr) : Bool :=
  if e.isHyper then
    match e.sourceChain with
    | ErrLink.io k :: _ => k == IoKind.notConnected
    | _ => false
  else false

/-- Modelled from the spec (§7 benign peer-hangup), the claim's original
reading: an engine (hyper) error whose source **chain contains** — at
any depth — an I/O error of kind not-connected. -/
def specBenignHangup (e : EngErr) : Bool :=
  e.isHyper &&
    e.sourceChain.any (fun l => l == ErrLink.io IoKind.notConnected)

/-- The tuple returned to the host by `op_http_request_next`
(`NextRequestResponse`, lib.rs:155–168). -/
structure NextTuple where
  requestRid : Option Nat
  responseSenderRid : Nat
  method : String
  headers : List (List Nat × List Nat)
  url : String
deriving DecidableEq

instance {ε α : Type} [DecidableEq ε] [DecidableEq α] : DecidableEq (Except ε α) :=
  fun a b =>
    match a, b with
    | Except.ok x, Except.ok y => decidable_of_iff (x = y) (by simp)
    | Except.ok _, Except.error _ => isFalse (by simp)
    | Except.error _, Except.ok _ => isFalse (by simp)
    | Except.error x, Except.error y => decidable_of_iff (x = y) (by simp)

/-- Outcome of one run of the `poll_fn` closure of
`op_http_request_next`. -/
inductive NextPoll
  | pending
  | ready (r : Except HttpErr (Option NextTuple))
deriving DecidableEq

/-- The slot-drain half of the `op_http_request_next` closure
(lib.rs:212–324): with a request in the service slot, build the header
list, URL and websocket flag, insert the `RequestResource` (only when the
request has a body or is a websocket candidate) and the
`ResponseSenderResource`, and return the tuple; with an empty slot,
finish with `None` when the connection closed and stay pending
otherwise. -/
def nextRequestFinish (t : Table) (connRid : Nat) (scheme addr : String)
    (closed : Bool) (slot : Option RequestData) : NextPoll × Table :=
  match slot with
  | some req =>
    match buildUrl scheme addr req with
    | Except.error e => (NextPoll.ready (Except.error e), t)
    | Except.ok url =>
      let hdrs := processHeaders req.headers
      let shouldInsert := is_websocket_request req.headers || has_body req.sizeHintExact
      let reqAdd : Option Nat × Table :=
        if shouldInsert then
          let a := Table.add t (Res.request ReqState.fresh connRid)
          (some a.1, a.2)
        else (none, t)
      let sendAdd := Table.add reqAdd.2 (Res.responseSender true connRid)
      (NextPoll.ready (Except.ok (some
        ⟨reqAdd.1, sendAdd.1, req.method, hdrs, url⟩)), sendAdd.2)
  | none =>
    if closed then (NextPoll.ready (Except.ok none), t)
    else (NextPoll.pending, t)

/-- One run of the `poll_fn` closure of `op_http_request_next`
(lib.rs:170–329), parameterised by the observed poll result of the
connection future and the service-slot contents. On `Ready(Ok)` and
`Ready(Err)` the `ConnResource` is taken from the table; a non-ignorable
error returns immediately. -/
def op_http_request_next_poll (t : Table) (connRid : Nat) (poll : ConnPoll)
    (slot : Option RequestData) : NextPoll × Table :=
  match getConn t connRid with
  | none => (NextPoll.ready (Except.error HttpErr.badResource), t)
  | some cd =>
    match poll with
    | ConnPoll.pending => nextRequestFinish t connRid cd.1 cd.2 false slot
    | ConnPoll.ok => nextRequestFinish (t.remove connRid) connRid cd.1 cd.2 true slot
    | ConnPoll.err e =>
      let t1 := t.remove connRid
      if should_ignore_error e then nextRequestFinish t1 connRid cd.1 cd.2 true slot
      else (NextPoll.ready (Except.error (HttpErr.engine e)), t1)

/-- `op_http_response` (lib.rs:382–452), with the oneshot send and the
one co-poll of the connection future made explicit. The
`ResponseSenderResource` is taken from the table first; when no body
buffer is passed a `ResponseBodyResource` is added; a dead receiver
yields the `"internal communication error"` type error; a `Ready`
connection poll closes the connection (propagating its error). -/
def op_http_response (t : Table) (rid : Nat) (hasData : Bool)
    (connPoll : ConnPoll) : Except HttpErr (Option Nat) × Table :=
  match takeSender t rid with
  | (none, t0) => (Except.error HttpErr.badResource, t0)
  | (some (alive, connRid), t1) =>
    match getConn t1 connRid with
    | none => (Except.error HttpErr.badResource, t1)
    | some _ =>
      let bodyAdd : Option Nat × Table :=
        if hasData then (none, t1)
        else
          let a := Table.add t1 (Res.responseBody connRid)
          (some a.1, a.2)
      if alive then
        match connPoll with
        | ConnPoll.pending => (Except.ok bodyAdd.1, bodyAdd.2)
        | ConnPoll.ok => (Except.ok bodyAdd.1, bodyAdd.2.remove connRid)
        | ConnPoll.err e => (Except.error (HttpErr.engine e), bodyAdd.2.remove connRid)
      else
        (Except.error (HttpErr.typeError "internal communication error"), bodyAdd.2)

/-- Outcome of one run of the read loop of `op_http_request_read`. -/
inductive ReadOutcome
  | pending
  | done (n : Nat)
  | failed (e : HttpErr)
deriving DecidableEq

/-- One run of `op_http_request_read` (lib.rs:481–533) up to and
including one run of its `poll_fn` closure: null-buffer check, typed
lookups of the request and its connection, the `Fresh → Reading`
transition, then the closure, which first propagates a `Ready(Err)` of
the connection future — leaving the table untouched — and otherwise
reports the read future's result (`readRes`: `none` while pending). -/
def op_http_request_read_poll (t : Table) (rid : Nat) (hasBuf : Bool)
    (connPoll : ConnPoll) (readRes : Option (Except IoKind Nat)) :
    ReadOutcome × Table :=
  if !hasBuf then (ReadOutcome.failed HttpErr.nullBuf, t)
  else
    match getRequest t rid with
    | none => (ReadOutcome.failed HttpErr.badResource, t)
    | some (_, connRid) =>
      match getConn t connRid with
      | none => (ReadOutcome.failed HttpErr.badResource, t)
      | some _ =>
        let t1 := setRequestState t rid ReqState.reading
        match connPoll with
        | ConnPoll.err e => (ReadOutcome.failed (HttpErr.engine e), t1)
        | _ =>
          match readRes with
          | none => (ReadOutcome.pending, t1)
          | some (Except.ok n) => (ReadOutcome.done n, t1)
          | some (Except.error k) => (ReadOutcome.failed (HttpErr.io k), t1)

/-- Outcome of one run of the write loop of `op_http_response_write`. -/
inductive WriteOutcome
  | pending
  | done
  | failed (e : HttpErr)
deriving DecidableEq

/-- One run of `op_http_response_write` (lib.rs:535–573) up to and
including one run of its `poll_fn` closure: null-buffer check, typed
lookups of the body resource and its connection, then the closure, which
polls the `send_data` future (`sendRes`: `none` while pending), then
propagates a `Ready(Err)` of the connection future — leaving the table
untouched — and otherwise reports the send result. -/
def op_http_response_write_poll (t : Table) (rid : Nat) (hasBuf : Bool)
    (connPoll : ConnPoll) (sendRes : Option (Except Unit Unit)) :
    WriteOutcome × Table :=
  if !hasBuf then (WriteOutcome.failed HttpErr.nullBuf, t)
  else
    match getBody t rid with
    | none => (WriteOutcome.failed HttpErr.badResource, t)
    | some connRid =>
      match getConn t connRid with
      | none => (WriteOutcome.failed HttpErr.badResource, t)
      | some _ =>
        match connPoll with
        | ConnPoll.err e => (WriteOutcome.failed (HttpErr.engine e), t)
        | _ =>
          match sendRes with
          | none => (WriteOutcome.pending, t)
          | some (Except.ok _) => (WriteOutcome.done, t)
          | some (Except.error _) => (WriteOutcome.failed HttpErr.sendFailed, t)

/-- `op_http_upgrade_websocket` (lib.rs:587–627): the
`RequestResource` is taken from the table first; a request no longer in
the `Fresh` state fails with *bad-resource*; otherwise the upgrade is
awaited (`upgrade`: its result) and on success the websocket stream
resource is added and its id returned. -/
def op_http_upgrade_websocket (t : Table) (rid : Nat)
    (upgrade : Except EngErr Unit) : Except HttpErr Nat × Table :=
  match takeRequest t rid with
  | (none, t0) => (Except.error HttpErr.badResource, t0)
  | (some (st, _), t1) =>
    match st with
    | ReqState.fresh =>
      match upgrade with
      | Except.error e => (Except.error (HttpErr.engine e), t1)
      | Except.ok _ =>
        let a := Table.add t1 Res.wsStream
        (Except.ok a.1, a.2)
    | ReqState.reading => (Except.error HttpErr.badResource, t1)

/-! ## Concrete inputs used by witnesses and counterexamples -/

/-- A request with a mixed-case cookie header between two other headers:
`X: y`, `CoOKie: a=1`, `Z: w`, `cookie: b=2`. -/
def c9Headers : List (List Nat × List Nat) :=
  [([88], [121]), ([67, 111, 79, 75, 105, 101], [97, 61, 49]),
   ([90], [119]), ([99, 111, 111, 107, 105, 101], [98, 61, 50])]

/-- Headers with `Connection: Upgrade\x80` (an obs-text byte, which
`to_str` rejects) and `Upgrade: websocket`. -/
def c7Headers : List (List Nat × List Nat) :=
  [(connectionBytes, [85, 112, 103, 114, 97, 100, 101, 128]),
   (upgradeBytes, [119, 101, 98, 115, 111, 99, 107, 101, 116])]

/-- A table holding a connection (rid 1), a fresh request on it (rid 2)
and a streaming response body on it (rid 3). -/
def c2Table : Table :=
  ⟨4, [(1, Res.conn "http" "1.2.3.4:80"), (2, Res.request ReqState.fresh 1),
    (3, Res.responseBody 1)]⟩

/-- A non-benign transport error (a hyper error with a connection-reset
I/O source). -/
def c2Err : EngErr := ⟨true, [ErrLink.io IoKind.connectionReset]⟩

/-- A table holding just a connection under rid 1. -/
def c3Table : Table := ⟨2, [(1, Res.conn "http" "127.0.0.1:8080")]⟩

/-- A hyper error whose direct source is an I/O error of kind
`NotConnected` — the benign peer-hangup. -/
def c3Err : EngErr := ⟨true, [ErrLink.io IoKind.notConnected]⟩

/-- A hyper error whose source chain contains a not-connected I/O error
only at depth two, behind a non-I/O wrapper. -/
def c3DeepErr : EngErr := ⟨true, [ErrLink.other, ErrLink.io IoKind.notConnected]⟩

/-- A bodyless GET request (`Host: x`, exact size hint 0). -/
def c3Req : RequestData := ⟨"GET", [(hostBytes, [120])], none, some "/", some 0⟩

/-- A GET request in absolute form whose target has the authority
`example.com:8080` — a host plus an explicit port. -/
def c4Req : RequestData :=
  ⟨"GET", [], some ⟨none, "example.com", some 8080⟩, some "/p", none⟩

/-- A table holding just a connection under rid 4. -/
def c6Table : Table := ⟨5, [(4, Res.conn "https" "10.0.0.1:443")]⟩

/-- A POST request with a 5-byte body (`Host: host1`). -/
def c6Req : RequestData :=
  ⟨"POST", [(hostBytes, [104, 111, 115, 116, 49])], none, some "/upload", some 5⟩

/-- A bodyless GET request used for the no-R-handle half of C6. -/
def c6ReqEmpty : RequestData :=
  ⟨"GET", [(hostBytes, [104, 111, 115, 116, 49])], none, some "/", some 0⟩

/-- A table holding a connection (rid 1) and a response sender on it
(rid 2) whose engine-side receiver has been dropped. -/
def c8Table : Table :=
  ⟨3, [(1, Res.conn "http" "9.9.9.9:80"), (2, Res.responseSender false 1)]⟩

/-- A table holding a connection (rid 1) and a request on it (rid 2)
whose body has already been read (`Reading` state). -/
def c10Table : Table :=
  ⟨3, [(1, Res.conn "http" "9.9.9.9:80"), (2, Res.request ReqState.reading 1)]⟩

/-! ## Cookie-coalescing lemmas -/

lemma splitHeaders_fst (hs : List (List Nat × List Nat)) :
    (splitHeaders hs).1 = hs.filter (fun p => !(isCookieHeader p.1)) := by
  induction hs with
  | nil => rfl
  | cons h rest ih =>
    obtain ⟨n, v⟩ := h
    by_cases hc : isCookieHeader n = true
    · simp [splitHeaders, List.filter, hc, ih]
    · simp only [Bool.not_eq_true] at hc
      simp [splitHeaders, List.filter, hc, ih]

lemma splitHeaders_snd (hs : List (List Nat × List Nat)) :
    (splitHeaders hs).2 = (hs.filter (fun p => isCookieHeader p.1)).map (fun p => p.2) := by
  induction hs with
  | nil => rfl
  | cons h rest ih =>
    obtain ⟨n, v⟩ := h
    by_cases hc : isCookieHeader n = true
    · simp [splitHeaders, List.filter, hc, ih]
    · simp only [Bool.not_eq_true] at hc
      simp [splitHeaders, List.filter, hc, ih]

lemma intercalate_nil_bytes : List.intercalate sepBytes ([] : List (List Nat)) = [] := by
  simp [List.intercalate]

lemma intercalate_single_bytes (c : List Nat) :
    List.intercalate sepBytes [c] = c := by
  simp [List.intercalate]

lemma intercalate_cons_cons_bytes (c c' : List Nat) (rest : List (List Nat)) :
    List.intercalate sepBytes (c :: c' :: rest) =
      c ++ sepBytes ++ List.intercalate sepBytes (c' :: rest) := by
  simp [List.intercalate, List.intersperse]

lemma cookieConcatLoop_eq (count i : Nat) (acc : List Nat)
    (cs : List (List Nat)) (h : i + cs.length = count) :
    cookieConcatLoop count i acc cs = acc ++ List.intercalate sepBytes cs := by
  induction cs generalizing i acc with
  | nil => simp [cookieConcatLoop, intercalate_nil_bytes]
  | cons c rest ih =>
    cases rest with
    | nil =>
      have hi : i = count - 1 := by simp at h; omega
      simp [cookieConcatLoop, hi, intercalate_single_bytes]
    | cons c' rest' =>
      have hi : i ≠ count - 1 := by simp at h; omega
      have step : cookieConcatLoop count i acc (c :: c' :: rest') =
          cookieConcatLoop count (i + 1) (acc ++ c ++ sepBytes) (c' :: rest') := by
        rw [cookieConcatLoop]
        simp [hi]
      rw [step, ih (i + 1) _ (by simp at h ⊢; omega),
        intercalate_cons_cons_bytes]
      simp [List.append_assoc]

lemma cookieConcat_eq (cs : List (List Nat)) :
    cookieConcat cs = List.intercalate sepBytes cs := by
  have := cookieConcatLoop_eq cs.length 0 [] cs (by simp)
  simpa [cookieConcat] using this

lemma isCookieHeader_cookieBytes : isCookieHeader cookieBytes = true := by decide

lemma filter_cookie_of_noncookie (hs : List (List Nat × List Nat)) :
    (hs.filter (fun p => !(isCookieHeader p.1))).filter
      (fun p => isCookieHeader p.1) = [] := by
  induction hs with
  | nil => rfl
  | cons h rest ih =>
    by_cases hc : isCookieHeader h.1 = true
    · simp [List.filter, hc, ih]
    · simp only [Bool.not_eq_true] at hc
      simp [List.filter, hc, ih]

lemma filter_noncookie_idem (hs : List (List Nat × List Nat)) :
    (hs.filter (fun p => !(isCookieHeader p.1))).filter
      (fun p => !(isCookieHeader p.1)) =
      hs.filter (fun p => !(isCookieHeader p.1)) := by
  induction hs with
  | nil => rfl
  | cons h rest ih =>
    by_cases hc : isCookieHeader h.1 = true
    · simp [List.filter, hc, ih]
    · simp only [Bool.not_eq_true] at hc
      simp [List.filter, hc, ih]

/-- Closed form of `processHeaders`: the non-cookie headers in order,
with the coalesced cookie entry appended exactly when a cookie header
was present. -/
lemma processHeaders_eq (hs : List (List Nat × List Nat)) :
    processHeaders hs =
      (if (hs.filter (fun p => isCookieHeader p.1)).isEmpty
       then hs.filter (fun p => !(isCookieHeader p.1))
       else hs.filter (fun p => !(isCookieHeader p.1)) ++
         [(cookieBytes, List.intercalate sepBytes
           ((hs.filter (fun p => isCookieHeader p.1)).map (fun p => p.2)))]) := by
  cases hF : hs.filter (fun p => isCookieHeader p.1) with
  | nil => simp [processHeaders, splitHeaders_fst, splitHeaders_snd, hF]
  | cons f fs =>
    simp [processHeaders, splitHeaders_fst, splitHeaders_snd,
      cookieConcat_eq, hF]

/-! ## Resource-table lemmas -/

lemma find?_filter_self (l : List (Nat × Res)) (rid : Nat) :
    List.find? (fun p => p.1 == rid) (l.filter (fun p => !(p.1 == rid))) =
      none := by
  induction l with
  | nil => rfl
  | cons a l ih =>
    by_cases h : (a.1 == rid) = true
    · rw [List.filter_cons_of_neg (by simp [h])]
      exact ih
    · rw [List.filter_cons_of_pos (by simp [h]), List.find?_cons]
      simp only [Bool.not_eq_true] at h
      simp only [h]
      exact ih

lemma find?_filter_other (l : List (Nat × Res)) (x rid : Nat) (h : rid ≠ x) :
    List.find? (fun p => p.1 == rid) (l.filter (fun p => !(p.1 == x))) =
      List.find? (fun p => p.1 == rid) l := by
  induction l with
  | nil => rfl
  | cons a l ih =>
    by_cases hx : (a.1 == x) = true
    · have hax : a.1 = x := by simpa using hx
      have hr : (a.1 == rid) = false := by
        rw [beq_eq_false_iff_ne, hax]
        exact Ne.symm h
      rw [List.filter_cons_of_neg (by simp [hx]), ih, List.find?_cons]
      simp [hr]
    · rw [List.filter_cons_of_pos (by simp [hx]), List.find?_cons,
        List.find?_cons]
      by_cases hr : (a.1 == rid) = true
      · simp [hr]
      · simp only [Bool.not_eq_true] at hr
        simp only [hr]
        exact ih

lemma find_remove_self (t : Table) (rid : Nat) :
    (t.remove rid).find rid = none := by
  unfold Table.remove Table.find
  rw [find?_filter_self]
  rfl

lemma find_remove_ne (t : Table) (x rid : Nat) (h : rid ≠ x) :
    (t.remove x).find rid = t.find rid := by
  unfold Table.remove Table.find
  rw [find?_filter_other _ _ _ h]

lemma find_add (t : Table) (r : Res) (rid : Nat) :
    (Table.add t r).2.find rid =
      if t.nextRid = rid then some r else t.find rid := by
  unfold Table.add Table.find
  rw [List.find?_cons]
  by_cases hn : t.nextRid = rid
  · rw [if_pos hn]
    have hb : (t.nextRid == rid) = true := by simp [hn]
    simp [hb]
  · rw [if_neg hn]
    have hb : (t.nextRid == rid) = false := by simp [hn]
    simp only [hb]

lemma find?_none_of_all_lt (l : List (Nat × Res)) (n : Nat)
    (h : l.all (fun p => p.1 < n) = true) :
    List.find? (fun p => p.1 == n) l = none := by
  induction l with
  | nil => rfl
  | cons a l ih =>
    simp only [List.all_cons, Bool.and_eq_true] at h
    have hne : (a.1 == n) = false := by
      have h1 := h.1
      simp only [decide_eq_true_eq] at h1
      rw [beq_eq_false_iff_ne]
      omega
    rw [List.find?_cons]
    simp only [hne]
    exact ih h.2

lemma find_nextRid_of_wf (t : Table) (h : t.wf = true) :
    t.find t.nextRid = none := by
  unfold Table.wf at h
  unfold Table.find
  rw [find?_none_of_all_lt _ _ h]
  rfl

lemma getSender_remove_self (t : Table) (rid : Nat) :
    getSender (t.remove rid) rid = none := by
  unfold getSender
  rw [find_remove_self]

lemma getRequest_remove_self (t : Table) (rid : Nat) :
    getRequest (t.remove rid) rid = none := by
  unfold getRequest
  rw [find_remove_self]

lemma getSender_add_body (t : Table) (c rid : Nat)
    (h : getSender t rid = none) :
    getSender (Table.add t (Res.responseBody c)).2 rid = none := by
  unfold getSender at h ⊢
  rw [find_add]
  by_cases hn : t.nextRid = rid
  · rw [if_pos hn]
  · rw [if_neg hn]
    exact h

lemma getRequest_add_ws (t : Table) (rid : Nat)
    (h : getRequest t rid = none) :
    getRequest (Table.add t Res.wsStream).2 rid = none := by
  unfold getRequest at h ⊢
  rw [find_add]
  by_cases hn : t.nextRid = rid
  · rw [if_pos hn]
  · rw [if_neg hn]
    exact h

lemma getSender_remove_of_none (t : Table) (x rid : Nat)
    (h : getSender t rid = none) :
    getSender (t.remove x) rid = none := by
  by_cases he : rid = x
  · subst he; exact getSender_remove_self t rid
  · unfold getSender at h ⊢
    rw [find_remove_ne t x rid he]
    exact h

lemma getConn_none_of_getSender (t : Table) (rid c : Nat) (a : Bool)
    (h1 : getSender t rid = some (a, c)) :
    getConn t rid = none := by
  unfold getSender at h1
  unfold getConn
  cases hf : t.find rid with
  | none => rw [hf] at h1
  | some r =>
    rw [hf] at h1
    cases r <;> simp_all

lemma getRequest_add_sender (t : Table) (a : Bool) (c r : Nat) :
    getRequest (Table.add t (Res.responseSender a c)).2 r =
      if t.nextRid = r then none else getRequest t r := by
  unfold getRequest
  rw [find_add]
  by_cases hn : t.nextRid = r
  · simp [hn]
  · simp [hn]

lemma getRequest_add_request (t : Table) (st : ReqState) (c r : Nat) :
    getRequest (Table.add t (Res.request st c)).2 r =
      if t.nextRid = r then some (st, c) else getRequest t r := by
  unfold getRequest
  rw [find_add]
  by_cases hn : t.nextRid = r
  · simp [hn]
  · simp [hn]

lemma getRequest_nextRid (t : Table) (h : t.wf = true) :
    getRequest t t.nextRid = none := by
  unfold getRequest
  rw [find_nextRid_of_wf t h]

lemma getConn_remove_self (t : Table) (rid : Nat) :
    getConn (t.remove rid) rid = none := by
  unfold getConn
  rw [find_remove_self]

lemma getConn_add_request (t : Table) (st : ReqState) (c x : Nat) :
    getConn (Table.add t (Res.request st c)).2 x =
      if t.nextRid = x then none else getConn t x := by
  unfold getConn
  rw [find_add]
  by_cases hn : t.nextRid = x
  · simp [hn]
  · simp [hn]

lemma getConn_add_sender (t : Table) (a : Bool) (c x : Nat) :
    getConn (Table.add t (Res.responseSender a c)).2 x =
      if t.nextRid = x then none else getConn t x := by
  unfold getConn
  rw [find_add]
  by_cases hn : t.nextRid = x
  · simp [hn]
  · simp [hn]

end DenoHttp

open DenoHttp

/-- Claim C1: in next-request, every incoming header whose name equals
`cookie` (ASCII case-insensitive) is removed from the host-visible
header list; if at least one such header was present, exactly one header
named `cookie` is emitted, whose value is the original cookie values in
arrival order joined by the literal two-byte separator `"; "`; if none
was present, none is emitted; all other headers pass through
unchanged. -/
theorem cookie_coalescing_c1 (hs : List (List Nat × List Nat)) :
    (processHeaders hs).filter (fun p => isCookieHeader p.1) =
      (if (hs.filter (fun p => isCookieHeader p.1)).isEmpty then []
       else [(cookieBytes, List.intercalate sepBytes
         ((hs.filter (fun p => isCookieHeader p.1)).map (fun p => p.2)))]) ∧
    (processHeaders hs).filter (fun p => !(isCookieHeader p.1)) =
      hs.filter (fun p => !(isCookieHeader p.1)) := by
  rw [processHeaders_eq]
  cases hF : hs.filter (fun p => isCookieHeader p.1) with
  | nil =>
    simp [hF, filter_cookie_of_noncookie, filter_noncookie_idem]
  | cons f fs =>
    constructor
    · simp [List.filter_append, filter_cookie_of_noncookie,
        isCookieHeader_cookieBytes, hF]
    · simp [List.filter_append, filter_noncookie_idem,
        isCookieHeader_cookieBytes, hF]

/-- Claim C9: the coalesced cookie header produced by next-request is
appended at the very end of the host-visible header list, after every
non-cookie header regardless of where the cookie headers arrived, and
its name is the lowercase byte string `"cookie"` regardless of the
original headers' casing. -/
theorem cookie_appended_last_c9 (hs : List (List Nat × List Nat))
    (h : hs.any (fun p => isCookieHeader p.1) = true) :
    processHeaders hs =
      hs.filter (fun p => !(isCookieHeader p.1)) ++
        [(strBytes "cookie", List.intercalate sepBytes
          ((hs.filter (fun p => isCookieHeader p.1)).map (fun p => p.2)))] := by
  have hstr : strBytes "cookie" = cookieBytes := by decide
  obtain ⟨x, hx, hpx⟩ := List.any_eq_true.mp h
  have hmem : x ∈ hs.filter (fun p => isCookieHeader p.1) :=
    List.mem_filter.mpr ⟨hx, hpx⟩
  rw [processHeaders_eq, hstr]
  cases hF : hs.filter (fun p => isCookieHeader p.1) with
  | nil => rw [hF] at hmem; exact absurd hmem (List.not_mem_nil x)
  | cons f fs => simp [hF]

/-- Witness for C9 at a concrete header list with mixed casing. -/
theorem cookie_appended_last_c9_witness :
    processHeaders c9Headers =
      c9Headers.filter (fun p => !(isCookieHeader p.1)) ++
        [(strBytes "cookie", List.intercalate sepBytes
          ((c9Headers.filter (fun p => isCookieHeader p.1)).map (fun p => p.2)))] :=
  cookie_appended_last_c9 c9Headers (by decide)

/-- Claim C7, corrected: `is_websocket_request` requires each tested
header value to be convertible by `HeaderValue::to_str` (visible ASCII);
with that proviso, a request is an upgrade candidate iff some
`Connection` value, lowercased, contains `"upgrade"` and some `Upgrade`
value, lowercased, contains `"websocket"`. -/
theorem ws_detection_c7 (hs : List (List Nat × List Nat)) :
    is_websocket_request hs =
      (((getAllValues hs connectionBytes).any fun v =>
          headerValueIsAscii v && containsSub (v.map toLowerByte) upgradeBytes) &&
        ((getAllValues hs upgradeBytes).any fun v =>
          headerValueIsAscii v && containsSub (v.map toLowerByte) websocketBytes)) := by
  have hv : ∀ v sub : List Nat, valueLcContains v sub =
      (headerValueIsAscii v && containsSub (v.map toLowerByte) sub) := by
    intro v sub
    unfold valueLcContains
    cases h : headerValueIsAscii v <;> simp [h]
  simp only [is_websocket_request, hv]

/-- Counterexample for C7 as stated: the `Connection` value, lowercased
bytewise, contains `"upgrade"` (and `Upgrade: websocket` is present), so
the claimed iff classifies the request as an upgrade candidate, yet the
code does not, because the value fails `to_str`. -/
theorem ws_detection_c7_counterexample :
    is_websocket_request c7Headers = false ∧
      specWsCandidate c7Headers = true := by decide

/-- Counterexample for C4 as stated: for an absolute-form target with
authority `example.com:8080`, the code (`req.uri().host()`,
lib.rs:258) reconstructs `http://example.com/p`, dropping the port,
while the claim's formula — host = the request target's authority —
gives `http://example.com:8080/p`. -/
theorem url_reconstruction_c4_counterexample :
    buildUrl "http" "1.2.3.4:80" c4Req = Except.ok "http://example.com/p" ∧
    specUrl "http" "1.2.3.4:80" c4Req =
      Except.ok "http://example.com:8080/p" ∧
    buildUrl "http" "1.2.3.4:80" c4Req ≠
      specUrl "http" "1.2.3.4:80" c4Req := by decide

/-- Claim C4, corrected: the URL reconstructed by next-request equals
`"{scheme}://{host}{path-and-query}"` where host is the **host
component** of the request target's authority (userinfo and port are
dropped) when an authority is present, else the `Host` header value
decoded as ASCII, else the connection's local-address string, and
path-and-query defaults to `"/"` — i.e. the code's `buildUrl` coincides
with the amended spec-worded `specUrlAmended` on every input, errors
included. -/
theorem url_reconstruction_c4 (scheme addr : String) (req : RequestData) :
    buildUrl scheme addr req = specUrlAmended scheme addr req := by
  cases hu : req.uriAuthority with
  | some a => simp [buildUrl, specUrlAmended, hu, Except.map]
  | none =>
    cases hv : getFirstValue req.headers hostBytes with
    | some v =>
      cases hd : headerValueToStr v <;>
        simp [buildUrl, specUrlAmended, hu, hv, hd, Except.map]
    | none => simp [buildUrl, specUrlAmended, hu, hv, Except.map]

set_option maxRecDepth 10000 in
/-- Claim C5: `ws-accept-header(K)` is the standard padded base64
encoding of the SHA-1 digest of the UTF-8 bytes of
`K ++ "258EAFA5-E914-47DA-95CA-C5AB0DC85B11"`, and on the RFC 6455
sample key `"dGhlIHNhbXBsZSBub25jZQ=="` it returns
`"s3pPLMBiTxaQ9kYGzzhZRbK+xOo="`. -/
theorem ws_accept_header_c5 :
    (∀ key : String, op_http_websocket_accept_header key =
      bytesToString (base64Encode (sha1 (strBytes
        (key ++ "258EAFA5-E914-47DA-95CA-C5AB0DC85B11"))))) ∧
    op_http_websocket_accept_header "dGhlIHNhbXBsZSBub25jZQ==" =
      "s3pPLMBiTxaQ9kYGzzhZRbK+xOo=" := by
  constructor
  · intro key
    rfl
  · decide

/-- Claim C2 (code-bug evidence): when the connection future yields
`Ready(Err)` inside read-request or write-response, the error is
surfaced but the `ConnResource` stays in the resource table — the
`close ConnResource` comments at lib.rs:524 and lib.rs:562 have no
corresponding code, so the claimed removal does not happen. -/
theorem read_write_err_conn_kept_c2 :
    ((op_http_request_read_poll c2Table 2 true (ConnPoll.err c2Err) none).1 =
        ReadOutcome.failed (HttpErr.engine c2Err) ∧
      getConn (op_http_request_read_poll c2Table 2 true
        (ConnPoll.err c2Err) none).2 1 = some ("http", "1.2.3.4:80")) ∧
    ((op_http_response_write_poll c2Table 3 true (ConnPoll.err c2Err)
        (some (Except.ok ()))).1 =
        WriteOutcome.failed (HttpErr.engine c2Err) ∧
      getConn (op_http_response_write_poll c2Table 3 true
        (ConnPoll.err c2Err) (some (Except.ok ()))).2 1 =
        some ("http", "1.2.3.4:80")) := by decide

/-- Claim C10: upgrade-ws removes the Request from the resource table
before checking its state; a request whose body has been read
(`Reading`) makes it fail with bad-resource, yet the R-handle is gone in
every case, and a subsequent read on that handle fails with
bad-resource as well. -/
theorem upgrade_ws_take_first_c10 (t : Table) (rid : Nat)
    (u : Except EngErr Unit) (st : ReqState) (connRid : Nat)
    (h : getRequest t rid = some (st, connRid)) :
    getRequest (op_http_upgrade_websocket t rid u).2 rid = none ∧
    (st = ReqState.reading →
      (op_http_upgrade_websocket t rid u).1 =
        Except.error HttpErr.badResource) ∧
    (op_http_request_read_poll (op_http_upgrade_websocket t rid u).2 rid
      true ConnPoll.pending none).1 =
      ReadOutcome.failed HttpErr.badResource := by
  have hshape : (op_http_upgrade_websocket t rid u).2 = t.remove rid ∨
      (op_http_upgrade_websocket t rid u).2 =
        (Table.add (t.remove rid) Res.wsStream).2 := by
    cases st with
    | fresh =>
      cases u with
      | error e => left; simp [op_http_upgrade_websocket, takeRequest, h]
      | ok v => right; simp [op_http_upgrade_websocket, takeRequest, h]
    | reading => left; simp [op_http_upgrade_websocket, takeRequest, h]
  have hgone : getRequest (op_http_upgrade_websocket t rid u).2 rid = none := by
    cases hshape with
    | inl he => rw [he]; exact getRequest_remove_self t rid
    | inr he =>
      rw [he]
      exact getRequest_add_ws _ _ (getRequest_remove_self t rid)
  refine ⟨hgone, ?_, ?_⟩
  · intro hst
    subst hst
    simp [op_http_upgrade_websocket, takeRequest, h]
  · simp [op_http_request_read_poll, hgone]

/-- Witness for C10: a table with a connection (rid 1) and a request in
`Reading` state (rid 2); the failed upgrade still consumes the handle
and a subsequent read gets bad-resource. -/
theorem upgrade_ws_take_first_c10_witness :
    getRequest (op_http_upgrade_websocket c10Table 2 (Except.ok ())).2 2 =
        none ∧
    (ReqState.reading = ReqState.reading →
      (op_http_upgrade_websocket c10Table 2 (Except.ok ())).1 =
        Except.error HttpErr.badResource) ∧
    (op_http_request_read_poll (op_http_upgrade_websocket c10Table 2
      (Except.ok ())).2 2 true ConnPoll.pending none).1 =
      ReadOutcome.failed HttpErr.badResource :=
  upgrade_ws_take_first_c10 c10Table 2 (Except.ok ()) ReqState.reading 1
    (by decide)

/-- Claim C8: respond takes the ResponseSender out of the resource
table before anything else — so it is consumed at most once and a second
respond on the same handle fails with bad-resource — and when the engine
has dropped the receiving end of the oneshot channel, respond fails with
the `"internal communication error"` type error with the handle already
gone. -/
theorem respond_single_use_c8 (t : Table) (rid : Nat) (d d2 : Bool)
    (p p2 : ConnPoll) :
    getSender (op_http_response t rid d p).2 rid = none ∧
    (op_http_response (op_http_response t rid d p).2 rid d2 p2).1 =
      Except.error HttpErr.badResource ∧
    (∀ connRid cd, getSender t rid = some (false, connRid) →
      getConn t connRid = some cd →
      (op_http_response t rid d p).1 =
        Except.error (HttpErr.typeError "internal communication error")) := by
  have key : getSender (op_http_response t rid d p).2 rid = none := by
    cases hs : getSender t rid with
    | none =>
      have hres : op_http_response t rid d p =
          (Except.error HttpErr.badResource, t) := by
        simp [op_http_response, takeSender, hs]
      rw [hres]
      exact hs
    | some s =>
      obtain ⟨alive, connRid⟩ := s
      have hbase : getSender (t.remove rid) rid = none :=
        getSender_remove_self t rid
      simp only [op_http_response, takeSender, hs]
      cases hc : getConn (t.remove rid) connRid with
      | none => simpa [hc] using hbase
      | some cd =>
        cases d with
        | false =>
          have hadded := getSender_add_body (t.remove rid) connRid rid hbase
          cases alive with
          | false => simpa [hc] using hadded
          | true =>
            cases p with
            | pending => simpa [hc] using hadded
            | ok => simpa [hc] using
               getSender_remove_of_none _ connRid rid hadded
            | err e => simpa [hc] using
               getSender_remove_of_none _ connRid rid hadded
        | true =>
          cases alive with
          | false => simpa [hc] using hbase
          | true =>
            cases p with
            | pending => simpa [hc] using hbase
            | ok => simpa [hc] using
               getSender_remove_of_none _ connRid rid hbase
            | err e => simpa [hc] using
               getSender_remove_of_none _ connRid rid hbase
  have hsecond : (op_http_response (op_http_response t rid d p).2 rid d2 p2).1 =
      Except.error HttpErr.badResource := by
    have key2 := key
    generalize hT : (op_http_response t rid d p).2 = t2 at key2 ⊢
    simp [op_http_response, takeSender, key2]
  refine ⟨key, hsecond, ?_⟩
  intro connRid cd h1 h2
  have hconnGone : getConn t rid = none :=
    getConn_none_of_getSender t rid connRid false h1
  have hne : connRid ≠ rid := by
    intro he
    rw [he] at h2
    rw [h2] at hconnGone
    exact Option.noConfusion hconnGone
  have hc1 : getConn (t.remove rid) connRid = some cd := by
    unfold getConn at h2 ⊢
    rw [find_remove_ne t rid connRid hne]
    exact h2
  cases d <;> simp [op_http_response, takeSender, h1, hc1]

/-- Witness for C8: a connection (rid 1) and a sender whose receiver is
dropped (rid 2); respond reports the communication type error, the
sender is gone, and a retry gets bad-resource. -/
theorem respond_single_use_c8_witness :
    getSender (op_http_response c8Table 2 true ConnPoll.pending).2 2 = none ∧
    (op_http_response (op_http_response c8Table 2 true ConnPoll.pending).2 2
      true ConnPoll.pending).1 = Except.error HttpErr.badResource ∧
    (op_http_response c8Table 2 true ConnPoll.pending).1 =
      Except.error (HttpErr.typeError "internal communication error") := by
  have h := respond_single_use_c8 c8Table 2 true true ConnPoll.pending
    ConnPoll.pending
  exact ⟨h.1, h.2.1, h.2.2 1 ("http", "9.9.9.9:80") (by decide) (by decide)⟩

/-- Counterexample for C3 as stated, at two explicit inputs. First,
with the benign not-connected error observed while a request is still
pending in the service slot, next-request returns the pending request's
tuple — neither `None` nor an error. Second, a hyper error whose source
chain contains a not-connected I/O error only at depth two satisfies
the claim's classification (`specBenignHangup`), yet
`should_ignore_error` — which inspects only the direct `source()` —
rejects it and next-request surfaces the error instead of returning
`None`. -/
theorem next_request_benign_err_c3_counterexample :
    (should_ignore_error c3Err = true ∧
      (op_http_request_next_poll c3Table 1 (ConnPoll.err c3Err)
        (some c3Req)).1 =
        NextPoll.ready (Except.ok (some
          ⟨none, 2, "GET", [(hostBytes, [120])], "http://x/"⟩)) ∧
      (op_http_request_next_poll c3Table 1 (ConnPoll.err c3Err)
        (some c3Req)).1 ≠ NextPoll.ready (Except.ok none)) ∧
    (specBenignHangup c3DeepErr = true ∧
      should_ignore_error c3DeepErr = false ∧
      (op_http_request_next_poll c3Table 1 (ConnPoll.err c3DeepErr)
        none).1 =
        NextPoll.ready (Except.error (HttpErr.engine c3DeepErr)) ∧
      (op_http_request_next_poll c3Table 1 (ConnPoll.err c3DeepErr)
        none).1 ≠ NextPoll.ready (Except.ok none)) := by decide

/-- Claim C3, corrected: when the engine future completes with an
error, the Connection is removed from the resource table. The error is
treated as benign exactly when it is a hyper error whose **direct**
`source()` is an I/O error of kind not-connected (a deeper chain
position does not count); then next-request returns `None` provided the
service slot holds no pending request, while a pending request is
returned as the next-request tuple. Every error not matching that
classification is surfaced. -/
theorem next_request_err_c3 (t : Table) (connRid : Nat) (cd : String × String)
    (e : EngErr) (slot : Option RequestData)
    (hconn : getConn t connRid = some cd) :
    (should_ignore_error e = true → slot = none →
      op_http_request_next_poll t connRid (ConnPoll.err e) slot =
        (NextPoll.ready (Except.ok none), t.remove connRid)) ∧
    (∀ req url, should_ignore_error e = true → slot = some req →
      buildUrl cd.1 cd.2 req = Except.ok url →
      (∃ tup : NextTuple,
        (op_http_request_next_poll t connRid (ConnPoll.err e) slot).1 =
          NextPoll.ready (Except.ok (some tup)) ∧
        tup.method = req.method ∧
        tup.headers = processHeaders req.headers ∧
        tup.url = url) ∧
      getConn (op_http_request_next_poll t connRid (ConnPoll.err e)
        slot).2 connRid = none) ∧
    (should_ignore_error e = false →
      op_http_request_next_poll t connRid (ConnPoll.err e) slot =
        (NextPoll.ready (Except.error (HttpErr.engine e)), t.remove connRid)) := by
  refine ⟨?_, ?_, ?_⟩
  · intro hig hslot
    subst hslot
    simp [op_http_request_next_poll, hconn, hig, nextRequestFinish]
  · intro req url hig hslot hurl
    subst hslot
    cases hins : is_websocket_request req.headers || has_body req.sizeHintExact with
    | true =>
      have hres : op_http_request_next_poll t connRid (ConnPoll.err e)
          (some req) =
          (NextPoll.ready (Except.ok (some
            ⟨some t.nextRid, t.nextRid + 1, req.method,
              processHeaders req.headers, url⟩)),
            (Table.add (Table.add (t.remove connRid)
              (Res.request ReqState.fresh connRid)).2
              (Res.responseSender true connRid)).2) := by
        simp [op_http_request_next_poll, hconn, hig, nextRequestFinish,
          hurl, hins, Table.add, Table.remove]
      refine ⟨⟨⟨some t.nextRid, t.nextRid + 1, req.method,
        processHeaders req.headers, url⟩, ?_, rfl, rfl, rfl⟩, ?_⟩
      · rw [hres]
      · rw [hres, getConn_add_sender]
        by_cases h1 : (Table.add (t.remove connRid)
            (Res.request ReqState.fresh connRid)).2.nextRid = connRid
        · rw [if_pos h1]
        · rw [if_neg h1, getConn_add_request]
          by_cases h2 : (t.remove connRid).nextRid = connRid
          · rw [if_pos h2]
          · rw [if_neg h2]
            exact getConn_remove_self t connRid
    | false =>
      have hres : op_http_request_next_poll t connRid (ConnPoll.err e)
          (some req) =
          (NextPoll.ready (Except.ok (some
            ⟨none, t.nextRid, req.method, processHeaders req.headers, url⟩)),
            (Table.add (t.remove connRid)
              (Res.responseSender true connRid)).2) := by
        simp [op_http_request_next_poll, hconn, hig, nextRequestFinish,
          hurl, hins, Table.add, Table.remove]
      refine ⟨⟨⟨none, t.nextRid, req.method,
        processHeaders req.headers, url⟩, ?_, rfl, rfl, rfl⟩, ?_⟩
      · rw [hres]
      · rw [hres, getConn_add_sender]
        by_cases h1 : (t.remove connRid).nextRid = connRid
        · rw [if_pos h1]
        · rw [if_neg h1]
          exact getConn_remove_self t connRid
  · intro hig
    simp [op_http_request_next_poll, hconn, hig]

/-- Witness for C3 (amended), exercising two branches: the benign error
on an empty slot ends the stream and removes the connection, and the
deep-chain error — not matching the direct-source classification — is
surfaced with the connection likewise removed. -/
theorem next_request_err_c3_witness :
    op_http_request_next_poll c3Table 1 (ConnPoll.err c3Err) none =
      (NextPoll.ready (Except.ok none), c3Table.remove 1) ∧
    op_http_request_next_poll c3Table 1 (ConnPoll.err c3DeepErr) none =
      (NextPoll.ready (Except.error (HttpErr.engine c3DeepErr)),
        c3Table.remove 1) :=
  ⟨(next_request_err_c3 c3Table 1 ("http", "127.0.0.1:8080") c3Err none
      (by decide)).1 (by decide) rfl,
    (next_request_err_c3 c3Table 1 ("http", "127.0.0.1:8080") c3DeepErr none
      (by decide)).2.2 (by decide)⟩

/-- Claim C6: next-request inserts a Request resource and returns its id
in the tuple exactly when the request has a body (positive exact size
hint, or unknown size) or is a WebSocket upgrade candidate; otherwise
the tuple's first component is `None` and no Request resource exists. -/
theorem next_request_rid_c6 (t : Table) (connRid : Nat)
    (scheme addr : String) (req : RequestData) (url : String)
    (hwf : t.wf = true)
    (hconn : getConn t connRid = some (scheme, addr))
    (hurl : buildUrl scheme addr req = Except.ok url) :
    ∃ tup : NextTuple,
      (op_http_request_next_poll t connRid ConnPoll.pending (some req)).1 =
        NextPoll.ready (Except.ok (some tup)) ∧
      tup.requestRid.isSome =
        (is_websocket_request req.headers || has_body req.sizeHintExact) ∧
      (∀ r, tup.requestRid = some r →
        getRequest (op_http_request_next_poll t connRid ConnPoll.pending
          (some req)).2 r = some (ReqState.fresh, connRid)) ∧
      (tup.requestRid = none →
        ∀ r, getRequest (op_http_request_next_poll t connRid ConnPoll.pending
          (some req)).2 r = getRequest t r) := by
  cases hins : is_websocket_request req.headers || has_body req.sizeHintExact with
  | true =>
    have hres : op_http_request_next_poll t connRid ConnPoll.pending (some req) =
        (NextPoll.ready (Except.ok (some
          ⟨some t.nextRid, t.nextRid + 1, req.method,
            processHeaders req.headers, url⟩)),
          (Table.add (Table.add t (Res.request ReqState.fresh connRid)).2
            (Res.responseSender true connRid)).2) := by
      simp [op_http_request_next_poll, hconn, nextRequestFinish, hurl, hins,
        Table.add]
    refine ⟨⟨some t.nextRid, t.nextRid + 1, req.method,
      processHeaders req.headers, url⟩, ?_, ?_, ?_, ?_⟩
    · rw [hres]
    · simp [hins]
    · intro r hr
      have hr' : r = t.nextRid := by
        simpa using hr.symm
      subst hr'
      rw [hres]
      rw [getRequest_add_sender]
      have hne : (Table.add t (Res.request ReqState.fresh connRid)).2.nextRid ≠
          t.nextRid := by
        simp [Table.add]
      rw [if_neg hne, getRequest_add_request, if_pos rfl]
    · intro hnone
      exact absurd hnone (by simp)
  | false =>
    have hres : op_http_request_next_poll t connRid ConnPoll.pending (some req) =
        (NextPoll.ready (Except.ok (some
          ⟨none, t.nextRid, req.method, processHeaders req.headers, url⟩)),
          (Table.add t (Res.responseSender true connRid)).2) := by
      simp [op_http_request_next_poll, hconn, nextRequestFinish, hurl, hins,
        Table.add]
    refine ⟨⟨none, t.nextRid, req.method, processHeaders req.headers, url⟩,
      ?_, ?_, ?_, ?_⟩
    · rw [hres]
    · simp [hins]
    · intro r hr
      exact absurd hr (by simp)
    · intro _ r
      rw [hres, getRequest_add_sender]
      by_cases hn : t.nextRid = r
      · rw [if_pos hn, ← hn]
        exact (getRequest_nextRid t hwf).symm
      · rw [if_neg hn]

/-- Witness for C6: both halves at concrete inputs — a POST with a
5-byte body receives an R-handle present in the table; a bodyless GET
receives none and leaves the request view of the table unchanged. -/
theorem next_request_rid_c6_witness :
    (∃ tup : NextTuple,
      (op_http_request_next_poll c6Table 4 ConnPoll.pending (some c6Req)).1 =
        NextPoll.ready (Except.ok (some tup)) ∧
      tup.requestRid.isSome =
        (is_websocket_request c6Req.headers || has_body c6Req.sizeHintExact) ∧
      (∀ r, tup.requestRid = some r →
        getRequest (op_http_request_next_poll c6Table 4 ConnPoll.pending
          (some c6Req)).2 r = some (ReqState.fresh, 4)) ∧
      (tup.requestRid = none →
        ∀ r, getRequest (op_http_request_next_poll c6Table 4 ConnPoll.pending
          (some c6Req)).2 r = getRequest c6Table r)) ∧
    (∃ tup : NextTuple,
      (op_http_request_next_poll c6Table 4 ConnPoll.pending
        (some c6ReqEmpty)).1 = NextPoll.ready (Except.ok (some tup)) ∧
      tup.requestRid.isSome =
        (is_websocket_request c6ReqEmpty.headers ||
          has_body c6ReqEmpty.sizeHintExact) ∧
      (∀ r, tup.requestRid = some r →
        getRequest (op_http_request_next_poll c6Table 4 ConnPoll.pending
          (some c6ReqEmpty)).2 r = some (ReqState.fresh, 4)) ∧
      (tup.requestRid = none →
        ∀ r, getRequest (op_http_request_next_poll c6Table 4 ConnPoll.pending
          (some c6ReqEmpty)).2 r = getRequest c6Table r)) :=
  ⟨next_request_rid_c6 c6Table 4 "https" "10.0.0.1:443" c6Req
      "https://host1/upload" (by decide) (by decide) (by decide),
    next_request_rid_c6 c6Table 4 "https" "10.0.0.1:443" c6ReqEmpty
      "https://host1/" (by decide) (by decide) (by decide)⟩






